import Mathlib

/-!
Verification of the query-safety and multi-agent-coordination layer of the
conversational-bi repository, as a shallow embedding in Lean 4.

Embedded components (each definition mirrors the named Python source):
* `validate` and its helpers — `conversational_bi/common/sql_validator.py`
  (`SQLValidator.validate`, `_dangerous_patterns`, `_validate_tables`).
* `aggregate` / `joinData` — `conversational_bi/agents/orchestrator/aggregator.py`
  (`ResultAggregator.aggregate`, `_join_data`).
* `discoverAll` — `conversational_bi/agents/orchestrator/discovery.py`
  (`AgentDiscoveryService.discover_all`).
* `handleTaskSend` — `conversational_bi/agents/base/a2a_server.py`
  (`A2AServer._handle_task_send`).
* `createPlan` — `conversational_bi/agents/orchestrator/agent.py`
  (`OrchestratorAgent._create_plan`).

Strings are modelled as `List Char` (ASCII character classes for `\w`, `\s`,
upper/lower-casing, matching Python `re` behaviour on ASCII input).
Python dictionaries are modelled as insertion-ordered association lists with
replace-in-place / append-at-end update semantics.  Fallible Python code that
raises is modelled with `Except String`.
-/

deriving instance DecidableEq for Except

/-! ## Character classes (Python `re` on ASCII input) -/

/-- Python `str.split()` / `\s` whitespace, restricted to ASCII. -/
def isSpaceCh (c : Char) : Bool :=
  c = ' ' || c = '\t' || c = '\n' || c = '\r' || c = '\x0b' || c = '\x0c'

/-- Python regex `\w` word characters, restricted to ASCII: `[A-Za-z0-9_]`. -/
def isWordCh (c : Char) : Bool :=
  c.isAlpha || c.isDigit || c = '_'

/-- Case-insensitive character equality (regex `re.IGNORECASE` on ASCII). -/
def ciEq (a b : Char) : Bool := a.toLower = b.toLower

/-- Case-insensitive "text begins with pattern" test. -/
def ciStarts : List Char → List Char → Bool
  | [], _ => true
  | _ :: _, [] => false
  | k :: ks, c :: cs => ciEq k c && ciStarts ks cs

/-- Python `str.lower()` on ASCII. -/
def lowerL (s : List Char) : List Char := s.map Char.toLower

/-- Python `str.upper()` on ASCII. -/
def upperL (s : List Char) : List Char := s.map Char.toUpper

/-- Python `str.strip()` on ASCII. -/
def stripL (s : List Char) : List Char :=
  ((s.dropWhile isSpaceCh).reverse.dropWhile isSpaceCh).reverse

/-- Python `str.split()` (split on whitespace runs, drop empty fields). -/
def pySplitAux : List Char → List Char → List (List Char)
  | [], acc => if acc.isEmpty then [] else [acc.reverse]
  | c :: cs, acc =>
    if isSpaceCh c then
      if acc.isEmpty then pySplitAux cs [] else acc.reverse :: pySplitAux cs []
    else
      pySplitAux cs (c :: acc)

def pySplit (s : List Char) : List (List Char) := pySplitAux s []

/-- Python `" ".join(words)`. -/
def joinSpace : List (List Char) → List Char
  | [] => []
  | [w] => w
  | w :: ws => w ++ ' ' :: joinSpace ws

/-- `" ".join(sql.split())` — the whitespace normalization in `SQLValidator.validate`. -/
def normalizeWs (s : List Char) : List Char := joinSpace (pySplit s)

/-! ## Dangerous-pattern matching (`SQLValidator._dangerous_patterns`) -/

/-- `true` when the previous character (if any) is not a word character:
a regex `\b` boundary immediately before a word character. -/
def boundaryBefore : Option Char → Bool
  | none => true
  | some c => !isWordCh c

/-- `true` when the text does not continue with a word character:
a regex `\b` boundary immediately after a word character. -/
def boundaryAfter : List Char → Bool
  | [] => true
  | c :: _ => !isWordCh c

/-- Scan for regex `\bKW\b` (case-insensitive), carrying the previous character. -/
def hasKeywordAux (kw : List Char) : Option Char → List Char → Bool
  | _, [] => false
  | prev, c :: cs =>
    (boundaryBefore prev && ciStarts kw (c :: cs) && boundaryAfter ((c :: cs).drop kw.length))
      || hasKeywordAux kw (some c) cs

/-- Regex `re.search(r"\bKW\b", s, re.IGNORECASE)` as a Bool. -/
def hasKeyword (kw : List Char) (s : List Char) : Bool := hasKeywordAux kw none s

/-- Scan for regex `\bKW` (case-insensitive, no trailing boundary): the
`\bxp_` / `\bsp_` stored-procedure patterns. -/
def hasProcPatAux (kw : List Char) : Option Char → List Char → Bool
  | _, [] => false
  | prev, c :: cs =>
    (boundaryBefore prev && ciStarts kw (c :: cs)) || hasProcPatAux kw (some c) cs

def hasProcPat (kw : List Char) (s : List Char) : Bool := hasProcPatAux kw none s

/-- Plain substring search (regexes `--` and `/\*` have no metacharacters
beyond the escaped star). -/
def hasSubstr (pat : List Char) : List Char → Bool
  | [] => pat.isEmpty
  | c :: cs => pat.isPrefixOf (c :: cs) || hasSubstr pat cs

/-- Helper for regex `;\s*\w`: after the semicolon, skip whitespace and
require a word character. -/
def wsThenWord : List Char → Bool
  | [] => false
  | c :: cs => if isSpaceCh c then wsThenWord cs else isWordCh c

/-- Regex `;\s*\w` — a statement separator followed by more input. -/
def hasStackedStmt : List Char → Bool
  | [] => false
  | c :: cs => (c = ';' && wsThenWord cs) || hasStackedStmt cs

/-- The shapes of the regexes in `SQLValidator._dangerous_patterns`. -/
inductive SqlPattern where
  | keyword (kw : List Char)
  | procPat (kw : List Char)
  | substr (pat : List Char)
  | stackedStmt
deriving DecidableEq

def SqlPattern.matchesIn : SqlPattern → List Char → Bool
  | .keyword kw, s => hasKeyword kw s
  | .procPat kw, s => hasProcPat kw s
  | .substr pat, s => hasSubstr pat s
  | .stackedStmt, s => hasStackedStmt s

/-- `SQLValidator._dangerous_patterns`, in source order, with the source
messages. -/
def dangerousPatterns : List (SqlPattern × String) :=
  [ (.keyword "DROP".data, "DROP statements not allowed"),
    (.keyword "DELETE".data, "DELETE statements not allowed"),
    (.keyword "TRUNCATE".data, "TRUNCATE statements not allowed"),
    (.keyword "INSERT".data, "INSERT statements not allowed"),
    (.keyword "UPDATE".data, "UPDATE statements not allowed"),
    (.keyword "ALTER".data, "ALTER statements not allowed"),
    (.keyword "CREATE".data, "CREATE statements not allowed"),
    (.keyword "GRANT".data, "GRANT statements not allowed"),
    (.keyword "REVOKE".data, "REVOKE statements not allowed"),
    (.stackedStmt, "multiple statements not allowed"),
    (.substr ['-', '-'], "SQL comment injection not allowed"),
    (.substr ['/', '*'], "SQL block comment not allowed"),
    (.keyword "EXEC".data, "EXEC not allowed"),
    (.keyword "EXECUTE".data, "EXECUTE not allowed"),
    (.procPat "xp_".data, "Extended stored procedures not allowed"),
    (.procPat "sp_".data, "System stored procedures not allowed") ]

/-- The `for pattern, message in self._dangerous_patterns` loop: the first
matching pattern's message, if any (`re.search` is applied to the raw `sql`,
not the normalized form). -/
def firstViolation (sql : List Char) : Option String :=
  (dangerousPatterns.find? (fun p => p.1.matchesIn sql)).map (·.2)

/-! ## Table whitelist (`SQLValidator._validate_tables`) -/

/-- Try to match `KW\s+(\w+)` at the head of `t` (the `\b` before `KW` is
checked by the caller).  On success return the captured identifier and the
remaining text after the whole match (regex matches are non-overlapping). -/
def matchKwCapture (kw : List Char) (t : List Char) : Option (List Char × List Char) :=
  if ciStarts kw t then
    match t.drop kw.length with
    | [] => none
    | c :: cs =>
      if isSpaceCh c then
        let rest := cs.dropWhile isSpaceCh
        match rest with
        | [] => none
        | d :: ds =>
          if isWordCh d then
            some ((d :: ds).takeWhile isWordCh, (d :: ds).dropWhile isWordCh)
          else none
      else none
  else none

/-- `re.findall(r"\bKW\s+(\w+)", sql, re.IGNORECASE)`: scan left to right,
non-overlapping, tracking whether the previous character was a word
character (for the `\b`).  Fuel is the length of the text; every step
consumes at least one character. -/
def findCapturesAux (kw : List Char) : Nat → Bool → List Char → List (List Char)
  | 0, _, _ => []
  | _ + 1, _, [] => []
  | fuel + 1, prevWord, c :: cs =>
    if prevWord then
      findCapturesAux kw fuel (isWordCh c) cs
    else
      match matchKwCapture kw (c :: cs) with
      | some (w, rest) => w :: findCapturesAux kw fuel true rest
      | none => findCapturesAux kw fuel (isWordCh c) cs

def findCaptures (kw : List Char) (s : List Char) : List (List Char) :=
  findCapturesAux kw s.length false s

/-- The identifiers following `FROM` and `JOIN` keywords.  The source
collects the two `re.findall` results into a Python `set`; set iteration
order is modelled as first-extraction order (`FROM` matches before `JOIN`
matches). -/
def extractTables (sql : List Char) : List (List Char) :=
  findCaptures "FROM".data sql ++ findCaptures "JOIN".data sql

/-- The first extracted table whose lowercase form is not in the lowercased
whitelist (`_validate_tables`'s failing table, if any). -/
def findBadTable (allowed : List String) (sql : List Char) : Option (List Char) :=
  let allowedLower := allowed.map (fun t => lowerL t.data)
  (extractTables sql).find? (fun t => !(allowedLower.contains (lowerL t)))

/-! ## `SQLValidator.validate` -/

/-- `SQLValidator.validate(sql)`: `Except.error msg` models
`raise SQLInjectionError(msg)`; `allowedTables = none` models
`allowed_tables is None` (table validation skipped).  Column validation is a
documented no-op in the source. -/
def validate (allowedTables : Option (List String)) (sql : List Char) : Except String Unit :=
  if !("SELECT".data.isPrefixOf (stripL (upperL (normalizeWs sql)))) then
    .error "Only SELECT queries are allowed"
  else
    match firstViolation sql with
    | some msg => .error msg
    | none =>
      match allowedTables with
      | some allowed =>
        match findBadTable allowed sql with
        | some t => .error ("Table \x27" ++ String.mk t ++ "\x27 not allowed")
        | none => .ok ()
      | none => .ok ()

/-- The word-boundary keyword patterns of `_dangerous_patterns`, in source
order. -/
def dangerousKeywords : List (List Char) :=
  ["DROP", "DELETE", "TRUNCATE", "INSERT", "UPDATE", "ALTER", "CREATE",
   "GRANT", "REVOKE", "EXEC", "EXECUTE"].map String.data

/-- The message paired with each keyword pattern in `_dangerous_patterns`. -/
def msgFor (kw : List Char) : String :=
  if kw = "EXEC".data then "EXEC not allowed"
  else if kw = "EXECUTE".data then "EXECUTE not allowed"
  else String.mk kw ++ " statements not allowed"

/-! ## Python dictionaries as insertion-ordered association lists -/

/-- Python `d[k] = v`: replace the value at the first occurrence of `k`
keeping its position, else append `(k, v)` at the end. -/
def dictSet {α β : Type} [DecidableEq α] : List (α × β) → α → β → List (α × β)
  | [], k, v => [(k, v)]
  | p :: ps, k, v => if p.1 = k then (k, v) :: ps else p :: dictSet ps k v

/-- Python `d.get(k)` / `d[k]` / `k in d`. -/
def dictLookup {α β : Type} [DecidableEq α] : List (α × β) → α → Option β
  | [], _ => none
  | p :: ps, k => if p.1 = k then some p.2 else dictLookup ps k

def dictHasKey {α β : Type} [DecidableEq α] (d : List (α × β)) (k : α) : Bool :=
  (dictLookup d k).isSome

/-! ## Result aggregation (`aggregator.py`) -/

/-- Scalar cell values of a result row (numeric, string or SQL NULL). -/
inductive Value where
  | intV (n : Int)
  | strV (s : String)
  | nullV
deriving DecidableEq, Repr

/-- Python truthiness of a cell value (`if key_value:`). -/
def Value.truthy : Value → Bool
  | .intV n => n != 0
  | .strV s => !s.isEmpty
  | .nullV => false

/-- A row (`dict[str, Any]`). -/
abbrev Row := List (String × Value)

/-- Python `d.update(row)`: set each of `row`'s fields in order. -/
def updateRow (d : Row) (r : Row) : Row :=
  r.foldl (fun acc p => dictSet acc p.1 p.2) d

/-- `result[key_value].update(row)`: merge `row` into the entry at key `k`.
Only called when `k` is present. -/
def mergeAt : List (Value × Row) → Value → Row → List (Value × Row)
  | [], _, _ => []
  | p :: ps, k, r => if p.1 = k then (p.1, updateRow p.2 r) :: ps else p :: mergeAt ps k r

/-- One step of the seeding comprehension: insert `row` under its key value
when `join_key in row`. -/
def seedStep (key : String) (m : List (Value × Row)) (row : Row) :
    List (Value × Row) :=
  match dictLookup row key with
  | some v => dictSet m v row
  | none => m

/-- `{row[join_key]: row.copy() for row in datasets[0] if join_key in row}`. -/
def seedMap (rows : List Row) (key : String) : List (Value × Row) :=
  rows.foldl (seedStep key) []

/-- One iteration of the join loop body: `key_value = row.get(join_key);
if key_value and key_value in result: result[key_value].update(row)`. -/
def mergeRow (key : String) (m : List (Value × Row)) (row : Row) : List (Value × Row) :=
  match dictLookup row key with
  | some v => if v.truthy && dictHasKey m v then mergeAt m v row else m
  | none => m

/-- `ResultAggregator._join_data(datasets, join_key)`. -/
def joinData (datasets : List (List Row)) (key : String) : List Row :=
  match datasets with
  | [] => []
  | [d] => d
  | d :: rest =>
    let seeded := seedMap d key
    let merged := rest.foldl (fun m ds => ds.foldl (mergeRow key) m) seeded
    merged.map (·.2)

/-- `AgentResult` dataclass. -/
structure AgentResult where
  agent_name : String
  success : Bool
  text : String
  data : Option (List Row) := none
  error : Option String := none
deriving DecidableEq, Repr

/-- `AggregatedResult` dataclass. -/
structure AggregatedResult where
  success : Bool
  response_text : String
  combined_data : Option (List Row) := none
  source_agents : List String := []
deriving DecidableEq, Repr

/-- Python truthiness of `r.data` (`if r.data:`): false for `None` and `[]`. -/
def dataTruthy : Option (List Row) → Bool
  | some d => !d.isEmpty
  | none => false

/-- Python truthiness of an optional string (`if join_strategy:`). -/
def pyStrTruthy : Option String → Bool
  | some s => !s.isEmpty
  | none => false

/-- One entry of the compact summary handed to
`llm.synthesize_response(original_query, agent_results)`. -/
structure SynthEntry where
  agent : String
  text : String
  row_count : Nat
deriving DecidableEq, Repr

/-- The model layer's `synthesize_response`, passed in as an opaque function
value (the LLM backend is an external collaborator). -/
abbrev SynthFn := String → List SynthEntry → String

/-- `ResultAggregator.aggregate(results, original_query, join_strategy)`. -/
def aggregate (synth : SynthFn) (results : List AgentResult)
    (originalQuery : String) (joinStrategy : Option String) : AggregatedResult :=
  let failed := results.filter (fun r => !r.success)
  if failed.length = results.length then
    { success := false
      response_text := "All data sources failed to respond."
      combined_data := none
      source_agents := results.map (·.agent_name) }
  else
    let successful := results.filter (fun r => r.success)
    match successful with
    | [r] =>
      { success := true
        response_text := r.text
        combined_data := r.data
        source_agents := [r.agent_name] }
    | _ =>
      let combined :=
        if pyStrTruthy joinStrategy then
          joinData (successful.filterMap (fun r => if dataTruthy r.data then r.data else none))
            (joinStrategy.getD "")
        else
          successful.foldl
            (fun acc r => if dataTruthy r.data then acc ++ r.data.getD [] else acc) []
      let summary := successful.map (fun r =>
        SynthEntry.mk r.agent_name r.text (if dataTruthy r.data then (r.data.getD []).length else 0))
      { success := true
        response_text := synth originalQuery summary
        combined_data := some combined
        source_agents := successful.map (·.agent_name) }

/-! ## Agent discovery (`discovery.py`) -/

/-- One skill entry of an agent card (`s["id"]`, optional `name`,
`description`, `tags`, `examples`). -/
structure Skill where
  id : String
  name? : Option String := none
  description? : Option String := none
  tags : List String := []
  examples : List String := []
deriving DecidableEq, Repr

/-- A fetched and parsed agent-card document (`card_data`); absent JSON keys
are `none`. -/
structure AgentCard where
  name? : Option String := none
  description? : Option String := none
  skills : List Skill := []
deriving DecidableEq, Repr

/-- `DiscoveredAgent` dataclass. -/
structure DiscoveredAgent where
  name : String
  description : String
  base_url : String
  skills : List Skill
  is_healthy : Bool := true
deriving DecidableEq, Repr

/-- The tail of `_discover_agent`: build a `DiscoveredAgent` from a parsed
card (`card_data.get("name", "Unknown")`, `card_data.get("description", "")`,
`card_data.get("skills", [])`). -/
def cardToAgent (baseUrl : String) (card : AgentCard) : DiscoveredAgent :=
  { name := card.name?.getD "Unknown"
    description := card.description?.getD ""
    base_url := baseUrl
    skills := card.skills }

/-- The `for base_url in self.agent_urls` loop of `discover_all`: each URL's
fetch/parse outcome is an oracle input (`.error` models any exception raised
by `_discover_agent`, which is logged and skipped).  The accumulated pair is
(`discovered`, `self._agents` registry keyed by name, last-discovered wins). -/
def discoverLoop :
    List (String × Except Unit AgentCard) → List DiscoveredAgent →
    List (String × DiscoveredAgent) →
    List DiscoveredAgent × List (String × DiscoveredAgent)
  | [], acc, reg => (acc, reg)
  | (_, .error _) :: rest, acc, reg => discoverLoop rest acc reg
  | (url, .ok card) :: rest, acc, reg =>
    let a := cardToAgent url card
    discoverLoop rest (acc ++ [a]) (dictSet reg a.name a)

/-- `AgentDiscoveryService.discover_all()`: `.error` models
`raise AgentDiscoveryError("No agents discovered")`. -/
def discoverAll (outcomes : List (String × Except Unit AgentCard)) :
    Except String (List DiscoveredAgent) :=
  let st := discoverLoop outcomes [] []
  if st.1.isEmpty then .error "No agents discovered" else .ok st.1

/-! ## A2A dispatch endpoint (`a2a_server.py`) -/

/-- One element of `message.parts`; absent JSON keys are `none`. -/
structure MsgPart where
  type? : Option String := none
  kind? : Option String := none
  text? : Option String := none
deriving DecidableEq, Repr

structure RpcMessage where
  parts : List MsgPart := []
deriving DecidableEq, Repr

structure RpcParams where
  message? : Option RpcMessage := none
deriving DecidableEq, Repr

/-- A parsed `tasks/send` request body. -/
structure RpcRequest where
  jsonrpc? : Option String := none
  id? : Option String := none
  method? : Option String := none
  params? : Option RpcParams := none
deriving DecidableEq, Repr

/-- Outcome of `_handle_task_send` on a parsed body: a JSON-RPC error
response, or dispatch of the extracted query text to the agent's handler. -/
inductive A2AResponse where
  | rpcError (id : Option String) (code : Int) (msg : String)
  | task (id : Option String) (query : String)
deriving DecidableEq, Repr

/-- `body.get("params", {}).get("message", {}).get("parts", [])`. -/
def bodyParts (body : RpcRequest) : List MsgPart :=
  match body.params? with
  | some pr =>
    match pr.message? with
    | some m => m.parts
    | none => []
  | none => []

/-- `part.get("type") == "text" or part.get("kind") == "text"`. -/
def isTextPart (p : MsgPart) : Bool :=
  p.type? = some "text" || p.kind? = some "text"

/-- The `for part in parts` loop: the `text` field of the first text-typed
part (the loop breaks there even if that field is missing). -/
def extractText : List MsgPart → Option String
  | [] => none
  | p :: ps => if isTextPart p then p.text? else extractText ps

/-- `A2AServer._handle_task_send` on a successfully parsed JSON body, up to
the invocation of the query handler. -/
def handleTaskSend (body : RpcRequest) : A2AResponse :=
  if body.jsonrpc? ≠ some "2.0" then
    .rpcError body.id? (-32600) "Invalid Request"
  else if body.method? ≠ some "tasks/send" then
    .rpcError body.id? (-32601) "Method not found"
  else
    match extractText (bodyParts body) with
    | some t =>
      if t.isEmpty then .rpcError body.id? (-32602) "Invalid params: no text found"
      else .task body.id? t
    | none => .rpcError body.id? (-32602) "Invalid params: no text found"

/-! ## Orchestrator planning (`agent.py`) -/

/-- One `(skill_id, sub_query)` tuple of the model layer's analysis. -/
structure SkillMapping where
  skill_id : String
  sub_query : String
deriving DecidableEq, Repr

/-- The model layer's `analyze_query` result, passed in as an oracle input. -/
structure QueryAnalysis where
  skill_mappings : List SkillMapping
  requires_cross_join : Bool := false
  join_strategy : Option String := none
deriving DecidableEq, Repr

/-- `QueryPlan` dataclass. -/
structure QueryPlan where
  agents : List DiscoveredAgent
  sub_queries : List String
  join_strategy : Option String := none
  original_query : String := ""
deriving DecidableEq, Repr

/-- `AgentDiscoveryService.get_agent_for_skill`: first agent, in registry
iteration order, advertising the skill id. -/
def getAgentForSkill (registry : List DiscoveredAgent) (skillId : String) :
    Option DiscoveredAgent :=
  registry.find? (fun a => a.skills.any (fun s => s.id = skillId))

/-- Loop body of the skill-resolution branch of `_create_plan`
(`if agent and agent not in agents: append to both lists`). -/
def planStep (registry : List DiscoveredAgent)
    (st : List DiscoveredAgent × List String) (m : SkillMapping) :
    List DiscoveredAgent × List String :=
  match getAgentForSkill registry m.skill_id with
  | some agent =>
    if st.1.contains agent then st else (st.1 ++ [agent], st.2 ++ [m.sub_query])
  | none => st

/-- `OrchestratorAgent._create_plan`, with the discovery registry (its
`dict.values()` in insertion order) and the model analysis as inputs. -/
def createPlan (registry : List DiscoveredAgent) (analysis : QueryAnalysis)
    (userQuery : String) : QueryPlan :=
  let st := analysis.skill_mappings.foldl (planStep registry) ([], [])
  if st.1.isEmpty then
    { agents := registry
      sub_queries := List.replicate registry.length userQuery
      join_strategy := if analysis.requires_cross_join then analysis.join_strategy else none
      original_query := userQuery }
  else
    { agents := st.1
      sub_queries := st.2
      join_strategy := if analysis.requires_cross_join then analysis.join_strategy else none
      original_query := userQuery }

/-- Invariant of the accumulated `result` dictionary inside `_join_data`:
keys are pairwise distinct and every stored row carries its own key value in
the join column. -/
def KeyMapInv (key : String) (m : List (Value × Row)) : Prop :=
  (m.map Prod.fst).Nodup ∧ ∀ p ∈ m, dictLookup p.2 key = some p.1

/-! ## Sanity checks of the embedding on concrete inputs -/

example : validate none "SELECT * FROM customers".data = .ok () := by decide

example : validate none "drop table customers".data =
    .error "Only SELECT queries are allowed" := by decide

example : validate none "SELECT 1 WHERE DROP".data =
    .error "DROP statements not allowed" := by decide

example : validate none "  select  *  from  t  ".data = .ok () := by decide

example : validate (some ["customers"]) "SELECT * FROM orders".data =
    .error "Table \x27orders\x27 not allowed" := by decide

example : validate (some ["customers"]) "SELECT * FROM customers c JOIN customers d ON 1 = 1".data =
    .ok () := by decide

example :
    handleTaskSend { jsonrpc? := some "2.0", id? := some "1", method? := some "tasks/send",
                     params? := some { message? := some { parts := [{ type? := some "text", text? := some "hi" }] } } } =
      .task (some "1") "hi" := by decide

/-! ## Shared helper lemmas -/

theorem length_filter_not_add (p : α → Bool) (l : List α) :
    (l.filter fun a => !p a).length + (l.filter p).length = l.length := by
  induction l with
  | nil => simp
  | cons x xs ih =>
    by_cases hx : p x = true
    · simp [List.filter, hx, ← ih]; omega
    · have hx' : p x = false := by simpa using hx
      simp [List.filter, hx', ← ih]; omega

theorem firstViolation_none_all (sql : List Char) (hv : firstViolation sql = none) :
    ∀ pr ∈ dangerousPatterns, pr.1.matchesIn sql = false := by
  have hfind : dangerousPatterns.find? (fun p => p.1.matchesIn sql) = none := by
    unfold firstViolation at hv
    exact Option.map_eq_none'.mp hv
  intro pr hpr
  have := List.find?_eq_none.mp hfind pr hpr
  simpa using this

theorem keyword_pattern_mem :
    ∀ kw ∈ dangerousKeywords, (SqlPattern.keyword kw, msgFor kw) ∈ dangerousPatterns := by
  decide

/-! ## C1 — keyed join on the spec's example -/

/-- C1: on the spec's example datasets `A = [{id:1,x:"a"},{id:2,x:"b"}]` and
`B = [{id:1,y:"p"},{id:3,y:"q"}]` with join key `id`, `_join_data` (and
`aggregate` with two successful results and that join strategy) returns
`[{id:1,x:"a",y:"p"}, {id:2,x:"b"}]`: the unmatched first-dataset row
`{id:2,x:"b"}` is kept, so the result is not the inner join
`[{id:1,x:"a",y:"p"}]` that the claim (and the function's own docstring
"Performs an inner join") states. -/
theorem C1_join_example :
    (joinData
        [[[("id", Value.intV 1), ("x", Value.strV "a")],
          [("id", Value.intV 2), ("x", Value.strV "b")]],
         [[("id", Value.intV 1), ("y", Value.strV "p")],
          [("id", Value.intV 3), ("y", Value.strV "q")]]] "id" =
      [[("id", Value.intV 1), ("x", Value.strV "a"), ("y", Value.strV "p")],
       [("id", Value.intV 2), ("x", Value.strV "b")]]) ∧
    ((aggregate (fun _ _ => "synthesized")
        [{ agent_name := "customers", success := true, text := "tA",
           data := some [[("id", Value.intV 1), ("x", Value.strV "a")],
                         [("id", Value.intV 2), ("x", Value.strV "b")]] },
         { agent_name := "orders", success := true, text := "tB",
           data := some [[("id", Value.intV 1), ("y", Value.strV "p")],
                         [("id", Value.intV 3), ("y", Value.strV "q")]] }]
        "q" (some "id")).combined_data =
      some [[("id", Value.intV 1), ("x", Value.strV "a"), ("y", Value.strV "p")],
            [("id", Value.intV 2), ("x", Value.strV "b")]]) ∧
    ([[("id", Value.intV 1), ("x", Value.strV "a"), ("y", Value.strV "p")],
      [("id", Value.intV 2), ("x", Value.strV "b")]] ≠
     [[("id", Value.intV 1), ("x", Value.strV "a"), ("y", Value.strV "p")]]) := by
  refine ⟨by decide, by decide, by decide⟩

/-! ## C2 — `--` and `/*` rejection -/

/-- C2 counterexample: `"DROP TABLE users -- x"` contains `--`, yet
`validate` raises with the message "Only SELECT queries are allowed", which
is neither comment-related message — refuting the claim that every SQL
containing `--` or `/*` fails with a comment-related message. -/
theorem C2_counterexample :
    hasSubstr ['-', '-'] ("DROP TABLE users ".data ++ ['-', '-'] ++ " x".data) = true ∧
    validate none ("DROP TABLE users ".data ++ ['-', '-'] ++ " x".data) =
      .error "Only SELECT queries are allowed" ∧
    "Only SELECT queries are allowed" ≠ "SQL comment injection not allowed" ∧
    "Only SELECT queries are allowed" ≠ "SQL block comment not allowed" := by
  refine ⟨by decide, by decide, by decide, by decide⟩

/-- C2 (amended): for every SQL string containing `--` or `/*` anywhere
(string literals included) and any whitelist configuration, `validate`
raises `SQLInjectionError`; the message is the comment-related one only when
no earlier check (SELECT prefix, earlier dangerous pattern) fails first. -/
theorem C2_comment_always_rejected :
    ∀ (allowedTables : Option (List String)) (sql : List Char),
      hasSubstr ['-', '-'] sql = true ∨ hasSubstr ['/', '*'] sql = true →
      ∃ msg, validate allowedTables sql = .error msg := by
  intro cfg sql h
  by_cases hsel : "SELECT".data.isPrefixOf (stripL (upperL (normalizeWs sql))) = true
  · cases hv : firstViolation sql with
    | some msg => exact ⟨msg, by simp [validate, hsel, hv]⟩
    | none =>
      exfalso
      have hall := firstViolation_none_all sql hv
      have h1 := hall (SqlPattern.substr ['-', '-'], "SQL comment injection not allowed")
        (by decide)
      have h2 := hall (SqlPattern.substr ['/', '*'], "SQL block comment not allowed")
        (by decide)
      simp [SqlPattern.matchesIn] at h1 h2
      rcases h with h | h
      · rw [h] at h1; cases h1
      · rw [h] at h2; cases h2
  · have hsel' : "SELECT".data.isPrefixOf (stripL (upperL (normalizeWs sql))) = false :=
      Bool.eq_false_iff.mpr hsel
    exact ⟨"Only SELECT queries are allowed", by simp [validate, hsel']⟩

/-- C2 witness: a SELECT query carrying a line comment is rejected. -/
theorem C2_witness :
    (hasSubstr ['-', '-'] ("SELECT * FROM customers ".data ++ ['-', '-'] ++ " hide".data) = true ∨
     hasSubstr ['/', '*'] ("SELECT * FROM customers ".data ++ ['-', '-'] ++ " hide".data) = true) ∧
    (∃ msg, validate none ("SELECT * FROM customers ".data ++ ['-', '-'] ++ " hide".data) =
      .error msg) :=
  ⟨Or.inl (by decide), C2_comment_always_rejected none _ (Or.inl (by decide))⟩

/-! ## C3 — dangerous statement keywords -/

/-- C3: any SQL containing, as a whole word in any letter case, one of
DROP, DELETE, TRUNCATE, INSERT, UPDATE, ALTER, CREATE, GRANT, REVOKE, EXEC,
EXECUTE makes `validate` raise `SQLInjectionError`, for every whitelist
configuration — including when the keyword follows a valid SELECT prefix. -/
theorem C3_keyword_rejected :
    ∀ (allowedTables : Option (List String)) (sql kw : List Char),
      kw ∈ dangerousKeywords → hasKeyword kw sql = true →
      ∃ msg, validate allowedTables sql = .error msg := by
  intro cfg sql kw hkw hmatch
  by_cases hsel : "SELECT".data.isPrefixOf (stripL (upperL (normalizeWs sql))) = true
  · cases hv : firstViolation sql with
    | some msg => exact ⟨msg, by simp [validate, hsel, hv]⟩
    | none =>
      exfalso
      have hall := firstViolation_none_all sql hv
      have hmem := keyword_pattern_mem kw hkw
      have := hall _ hmem
      simp [SqlPattern.matchesIn] at this
      rw [hmatch] at this
      cases this
  · have hsel' : "SELECT".data.isPrefixOf (stripL (upperL (normalizeWs sql))) = false :=
      Bool.eq_false_iff.mpr hsel
    exact ⟨"Only SELECT queries are allowed", by simp [validate, hsel']⟩

/-- C3 witness: lowercase whole-word `drop` after a valid SELECT prefix is
rejected. -/
theorem C3_witness :
    ("DROP".data ∈ dangerousKeywords ∧
     hasKeyword "DROP".data "SELECT * FROM t WHERE drop".data = true) ∧
    (∃ msg, validate none "SELECT * FROM t WHERE drop".data = .error msg) :=
  ⟨⟨by decide, by decide⟩,
   C3_keyword_rejected none "SELECT * FROM t WHERE drop".data "DROP".data
     (by decide) (by decide)⟩

/-! ## C4 — combined_data when no successful result carries rows -/

/-- C4 counterexample: two successful results, both with `data = None`, no
join strategy — `aggregate` returns `combined_data = []` (an empty list),
not `null`/absent, refuting the claim that `combined_data` is null/absent
whenever no successful result carried row data. -/
theorem C4_counterexample :
    (aggregate (fun _ _ => "synthesized")
      [{ agent_name := "a", success := true, text := "ta" },
       { agent_name := "b", success := true, text := "tb" }] "q" none).combined_data =
      some [] ∧
    (some [] : Option (List Row)) ≠ none := by
  refine ⟨by decide, by decide⟩

theorem dataTruthy_false {r : AgentResult} (h : r.data = none ∨ r.data = some []) :
    dataTruthy r.data = false := by
  rcases h with h | h <;> simp [h, dataTruthy]

theorem concat_fold_nil (l : List AgentResult) (acc : List Row)
    (h : ∀ r ∈ l, r.data = none ∨ r.data = some []) :
    l.foldl (fun acc r => if dataTruthy r.data then acc ++ r.data.getD [] else acc) acc
      = acc := by
  induction l generalizing acc with
  | nil => rfl
  | cons x xs ih =>
    have hx := dataTruthy_false (h x (List.mem_cons_self x xs))
    simp only [List.foldl_cons, hx, Bool.false_eq_true, if_false]
    exact ih acc fun r hr => h r (List.mem_cons_of_mem x hr)

theorem filterMap_data_nil (l : List AgentResult)
    (h : ∀ r ∈ l, r.data = none ∨ r.data = some []) :
    l.filterMap (fun r => if dataTruthy r.data then r.data else none) = [] := by
  rw [List.filterMap_eq_nil_iff]
  intro r hr
  simp [dataTruthy_false (h r hr)]

/-- C4 (amended): when at least one result succeeded but no successful
result carried any row data (each successful `data` is null or the empty
list), `combined_data` is null or the empty list — null exactly in the
single-success short-circuit with null data; the multi-result paths produce
the empty list, not null. -/
theorem C4_no_row_data :
    ∀ (synth : SynthFn) (results : List AgentResult) (q : String) (js : Option String),
      (∃ r ∈ results, r.success = true) →
      (∀ r ∈ results, r.success = true → r.data = none ∨ r.data = some []) →
      (aggregate synth results q js).combined_data = none ∨
      (aggregate synth results q js).combined_data = some [] := by
  intro synth results q js hex hall
  by_cases hf : (results.filter fun r => !r.success).length = results.length
  · left
    simp [aggregate, hf]
  · have hsucc : ∀ r ∈ results.filter (fun r => r.success),
        r.data = none ∨ r.data = some [] := by
      intro r hr
      have hm := List.mem_filter.mp hr
      exact hall r hm.1 hm.2
    rcases hS : results.filter (fun r => r.success) with _ | ⟨r, rest⟩
    · right
      by_cases hjs : pyStrTruthy js = true
      · simp [aggregate, hf, hS, hjs, joinData]
      · have hjs' : pyStrTruthy js = false := Bool.eq_false_iff.mpr hjs
        simp [aggregate, hf, hS, hjs']
    · rcases rest with _ | ⟨r2, rest2⟩
      · have hr : r.data = none ∨ r.data = some [] := by
          apply hsucc; rw [hS]; exact List.mem_cons_self r []
        rcases hr with h | h
        · left; simp [aggregate, hf, hS, h]
        · right; simp [aggregate, hf, hS, h]
      · right
        have hall2 : ∀ x ∈ r :: r2 :: rest2, x.data = none ∨ x.data = some [] := by
          rw [← hS]; exact hsucc
        by_cases hjs : pyStrTruthy js = true
        · simp [aggregate, hf, hS, hjs, filterMap_data_nil _ hall2, joinData]
        · have hjs' : pyStrTruthy js = false := Bool.eq_false_iff.mpr hjs
          simp [aggregate, hf, hS, hjs', concat_fold_nil _ [] hall2]

/-- C4 witness: one successful empty-data result plus one with null data,
joined on a key — `combined_data` carries no rows. -/
theorem C4_witness :
    (aggregate (fun _ _ => "s")
      [{ agent_name := "a", success := true, text := "t" },
       { agent_name := "b", success := true, text := "t", data := some [] }]
      "q" (some "id")).combined_data = none ∨
    (aggregate (fun _ _ => "s")
      [{ agent_name := "a", success := true, text := "t" },
       { agent_name := "b", success := true, text := "t", data := some [] }]
      "q" (some "id")).combined_data = some [] :=
  C4_no_row_data (fun _ _ => "s")
    [{ agent_name := "a", success := true, text := "t" },
     { agent_name := "b", success := true, text := "t", data := some [] }]
    "q" (some "id") (by decide) (by decide)

/-! ## C6 — dispatch-endpoint validation errors -/

theorem extractText_eq_none (ps : List MsgPart) (h : ∀ p ∈ ps, isTextPart p = false) :
    extractText ps = none := by
  induction ps with
  | nil => rfl
  | cons p rest ih =>
    have hp := h p (List.mem_cons_self p rest)
    simp only [extractText, hp, Bool.false_eq_true, if_false]
    exact ih fun x hx => h x (List.mem_cons_of_mem p hx)

/-- C6: `_handle_task_send` validation — a body whose `jsonrpc` field is not
`"2.0"` gets error code -32600; with correct `jsonrpc` but a method other
than `"tasks/send"`, code -32601; with both correct but no text-typed part
in `params.message.parts` (e.g. empty parts), code -32602. -/
theorem C6_dispatch_errors :
    ∀ body : RpcRequest,
      (body.jsonrpc? ≠ some "2.0" →
        handleTaskSend body = .rpcError body.id? (-32600) "Invalid Request") ∧
      (body.jsonrpc? = some "2.0" → body.method? ≠ some "tasks/send" →
        handleTaskSend body = .rpcError body.id? (-32601) "Method not found") ∧
      (body.jsonrpc? = some "2.0" → body.method? = some "tasks/send" →
        (∀ p ∈ bodyParts body, isTextPart p = false) →
        handleTaskSend body = .rpcError body.id? (-32602) "Invalid params: no text found") := by
  intro body
  refine ⟨?_, ?_, ?_⟩
  · intro h1
    simp [handleTaskSend, h1]
  · intro h1 h2
    simp [handleTaskSend, h1, h2]
  · intro h1 h2 h3
    simp [handleTaskSend, h1, h2, extractText_eq_none _ h3]

/-- C6 witness: the three error cases at concrete request bodies. -/
theorem C6_witness :
    handleTaskSend { jsonrpc? := some "1.0", id? := some "7" } =
      .rpcError (some "7") (-32600) "Invalid Request" ∧
    handleTaskSend { jsonrpc? := some "2.0", id? := some "7", method? := some "other" } =
      .rpcError (some "7") (-32601) "Method not found" ∧
    handleTaskSend { jsonrpc? := some "2.0", id? := some "7", method? := some "tasks/send",
                     params? := some { message? := some { parts := [] } } } =
      .rpcError (some "7") (-32602) "Invalid params: no text found" :=
  ⟨(C6_dispatch_errors _).1 (by decide),
   (C6_dispatch_errors _).2.1 (by decide) (by decide),
   (C6_dispatch_errors _).2.2 (by decide) (by decide) (by decide)⟩

/-! ## C7 — single-success short-circuit -/

/-- C7: when exactly one result succeeded, `aggregate` returns that result's
text and data verbatim with `source_agents` the one-element list of that
agent's name, and the output is independent of the model-layer synthesis
function (no synthesis call is observable). -/
theorem C7_single_success :
    ∀ (synth synth2 : SynthFn) (results : List AgentResult) (q : String)
      (js : Option String) (r : AgentResult),
      results.filter (fun x => x.success) = [r] →
      (aggregate synth results q js =
        { success := true, response_text := r.text, combined_data := r.data,
          source_agents := [r.agent_name] } ∧
       aggregate synth results q js = aggregate synth2 results q js) := by
  intro synth synth2 results q js r h
  have hf : (results.filter fun x => !x.success).length ≠ results.length := by
    have hp := length_filter_not_add (fun x => x.success) results
    rw [h] at hp
    simp at hp
    omega
  have key : ∀ s : SynthFn, aggregate s results q js =
      { success := true, response_text := r.text, combined_data := r.data,
        source_agents := [r.agent_name] } := by
    intro s
    simp [aggregate, hf, h]
  exact ⟨key synth, by rw [key synth, key synth2]⟩

/-- C7 witness: one success among a failure; text/data returned verbatim. -/
theorem C7_witness :
    aggregate (fun _ _ => "s1")
      [{ agent_name := "alpha", success := true, text := "Found 5",
         data := some [[("a", Value.intV 1)]] },
       { agent_name := "beta", success := false, text := "", error := some "boom" }]
      "q" none =
      { success := true, response_text := "Found 5",
        combined_data := some [[("a", Value.intV 1)]], source_agents := ["alpha"] } ∧
    aggregate (fun _ _ => "s1")
      [{ agent_name := "alpha", success := true, text := "Found 5",
         data := some [[("a", Value.intV 1)]] },
       { agent_name := "beta", success := false, text := "", error := some "boom" }]
      "q" none =
    aggregate (fun _ _ => "s2")
      [{ agent_name := "alpha", success := true, text := "Found 5",
         data := some [[("a", Value.intV 1)]] },
       { agent_name := "beta", success := false, text := "", error := some "boom" }]
      "q" none :=
  C7_single_success (fun _ _ => "s1") (fun _ _ => "s2")
    [{ agent_name := "alpha", success := true, text := "Found 5",
       data := some [[("a", Value.intV 1)]] },
     { agent_name := "beta", success := false, text := "", error := some "boom" }]
    "q" none
    { agent_name := "alpha", success := true, text := "Found 5",
      data := some [[("a", Value.intV 1)]] }
    (by decide)

/-! ## C5 — partial discovery -/

theorem discoverLoop_length :
    ∀ (outcomes : List (String × Except Unit AgentCard)) (acc : List DiscoveredAgent)
      (reg : List (String × DiscoveredAgent)),
      (discoverLoop outcomes acc reg).1.length =
        acc.length + (outcomes.filter (fun o => o.2.isOk)).length := by
  intro outcomes
  induction outcomes with
  | nil => intro acc reg; simp [discoverLoop]
  | cons o rest ih =>
    intro acc reg
    rcases o with ⟨url, oc⟩
    cases oc with
    | error e => simpa [discoverLoop, Except.isOk, Except.toBool] using ih acc reg
    | ok card =>
      have h2 := ih (acc ++ [cardToAgent url card])
        (dictSet reg (cardToAgent url card).name (cardToAgent url card))
      simp [discoverLoop, Except.isOk, Except.toBool, h2]
      omega

/-- C5: over any sequence of per-URL fetch outcomes with M successes,
`discover_all` returns exactly the M discovered agents when M ≥ 1 (per-URL
failures are skipped, never aborting the pass) and raises
`AgentDiscoveryError` exactly when M = 0. -/
theorem C5_discovery :
    ∀ outcomes : List (String × Except Unit AgentCard),
      (∀ agents, discoverAll outcomes = .ok agents →
        agents.length = (outcomes.filter (fun o => o.2.isOk)).length) ∧
      (discoverAll outcomes = .error "No agents discovered" ↔
        (outcomes.filter (fun o => o.2.isOk)).length = 0) := by
  intro outcomes
  have hlen := discoverLoop_length outcomes [] []
  simp only [List.length_nil, Nat.zero_add] at hlen
  constructor
  · intro agents hok
    simp only [discoverAll] at hok
    by_cases he : (discoverLoop outcomes [] []).1.isEmpty
    · simp [he] at hok
    · simp [he] at hok
      rw [← hok, hlen]
  · constructor
    · intro herr
      simp only [discoverAll] at herr
      by_cases he : (discoverLoop outcomes [] []).1.isEmpty
      · have h0 : (discoverLoop outcomes [] []).1 = [] := List.isEmpty_iff.mp he
        rw [← hlen, h0]
        rfl
      · simp [he] at herr
    · intro hM
      have h0 : (discoverLoop outcomes [] []).1 = [] := by
        have : (discoverLoop outcomes [] []).1.length = 0 := by omega
        exact List.length_eq_zero.mp this
      have he : (discoverLoop outcomes [] []).1.isEmpty = true := by
        simp [List.isEmpty_iff, h0]
      simp [discoverAll, he]

/-- C5 witness: one reachable and one unreachable URL — exactly one agent
is returned and no error is raised. -/
theorem C5_witness :
    [cardToAgent "http://a" { name? := some "A" }].length =
      ([(("http://a" : String), (Except.ok { name? := some "A" } : Except Unit AgentCard)),
        (("http://b" : String), (Except.error () : Except Unit AgentCard))].filter
        (fun o => o.2.isOk)).length :=
  (C5_discovery _).1 _ (by decide)

/-! ## C9 — plan lists are parallel -/

theorem planFold_lengths (registry : List DiscoveredAgent) :
    ∀ (ms : List SkillMapping) (st : List DiscoveredAgent × List String),
      st.1.length = st.2.length →
      (ms.foldl (planStep registry) st).1.length =
        (ms.foldl (planStep registry) st).2.length := by
  intro ms
  induction ms with
  | nil => intro st h; simpa using h
  | cons m rest ih =>
    intro st h
    rw [List.foldl_cons]
    apply ih
    unfold planStep
    cases getAgentForSkill registry m.skill_id with
    | none => simpa using h
    | some agent =>
      by_cases hc : agent ∈ st.1
      · simp [hc, h]
      · simp [hc, h]

/-- C9: every `QueryPlan` built by `_create_plan` has as many sub-queries as
target agents — in the skill-resolution branch (lockstep appends) and in the
broadcast fallback (the original query replicated once per discovered
agent). -/
theorem C9_plan_lengths :
    ∀ (registry : List DiscoveredAgent) (analysis : QueryAnalysis) (q : String),
      (createPlan registry analysis q).agents.length =
        (createPlan registry analysis q).sub_queries.length := by
  intro registry analysis q
  simp only [createPlan]
  by_cases he : (analysis.skill_mappings.foldl (planStep registry) ([], [])).1.isEmpty
  · simp [he]
  · simp [he]
    exact planFold_lengths registry analysis.skill_mappings ([], []) rfl

/-! ## C8 — table whitelist -/

theorem find?_eq_some_unique {α : Type} (p : α → Bool) (a : α) :
    ∀ l : List α, a ∈ l → p a = true → (∀ x ∈ l, p x = true → x = a) →
      l.find? p = some a := by
  intro l
  induction l with
  | nil => intro h _ _; simp at h
  | cons x xs ih =>
    intro hmem hpa huniq
    by_cases hx : p x = true
    · have hxa : x = a := huniq x (List.mem_cons_self x xs) hx
      subst hxa
      simp [List.find?_cons_of_pos _ hx]
    · have hx' : p x = false := Bool.eq_false_iff.mpr hx
      rw [List.find?_cons_of_neg _ hx]
      apply ih
      · rcases List.mem_cons.mp hmem with h | h
        · exact absurd (h ▸ hpa) hx
        · exact h
      · exact hpa
      · intro y hy hpy
        exact huniq y (List.mem_cons_of_mem x hy) hpy

/-- C8: with `allowed_tables = ["customers"]`, for any SQL passing the
SELECT-prefix and dangerous-pattern checks: if `orders` appears among the
identifiers following FROM/JOIN (and every extracted identifier is
`customers` up to case, or literally `orders`), `validate` raises with the
message naming `orders`; if every extracted identifier is `customers` up to
case, `validate` succeeds.  (The source stores the extracted names in a
Python set whose iteration order is unspecified; the side condition pins the
offender down so the message is determined.) -/
theorem C8_table_whitelist :
    ∀ sql : List Char,
      "SELECT".data.isPrefixOf (stripL (upperL (normalizeWs sql))) = true →
      firstViolation sql = none →
      ((("orders".data ∈ extractTables sql) ∧
        (∀ t ∈ extractTables sql, lowerL t = "customers".data ∨ t = "orders".data)) →
        validate (some ["customers"]) sql = .error "Table \x27orders\x27 not allowed") ∧
      ((∀ t ∈ extractTables sql, lowerL t = "customers".data) →
        validate (some ["customers"]) sql = .ok ()) := by
  intro sql hsel hv
  have hval : validate (some ["customers"]) sql =
      (match findBadTable ["customers"] sql with
       | some t => .error ("Table \x27" ++ String.mk t ++ "\x27 not allowed")
       | none => .ok ()) := by
    simp [validate, hsel, hv]
  have hpc : ∀ x : List Char, lowerL x = "customers".data →
      (!((["customers"].map (fun t => lowerL t.data)).contains (lowerL x))) = false := by
    intro x hx
    rw [hx]
    decide
  constructor
  · rintro ⟨hmem, hall⟩
    have hfind : findBadTable ["customers"] sql = some "orders".data := by
      simp only [findBadTable]
      apply find?_eq_some_unique _ _ _ hmem (by decide)
      intro x hx hpx
      rcases hall x hx with h | h
      · rw [hpc x h] at hpx
        cases hpx
      · exact h
    rw [hval, hfind]
    decide
  · intro hall
    have hfind : findBadTable ["customers"] sql = none := by
      simp only [findBadTable]
      rw [List.find?_eq_none]
      intro x hx
      show ¬((!((["customers"].map (fun t => lowerL t.data)).contains (lowerL x))) = true)
      rw [hpc x (hall x hx)]
      simp
    rw [hval, hfind]

/-- C8 witness: `FROM orders` is rejected naming `orders`; `FROM customers`
passes. -/
theorem C8_witness :
    validate (some ["customers"]) "SELECT * FROM orders".data =
      .error "Table \x27orders\x27 not allowed" ∧
    validate (some ["customers"]) "SELECT * FROM customers".data = .ok () :=
  ⟨(C8_table_whitelist "SELECT * FROM orders".data (by decide) (by decide)).1
     ⟨by decide, by decide⟩,
   (C8_table_whitelist "SELECT * FROM customers".data (by decide) (by decide)).2
     (by decide)⟩

/-! ## C10 — dictionary lemmas for the join -/

theorem dictLookup_dictSet_self {α β : Type} [DecidableEq α]
    (m : List (α × β)) (k : α) (v : β) :
    dictLookup (dictSet m k v) k = some v := by
  induction m with
  | nil => simp [dictSet, dictLookup]
  | cons p ps ih =>
    by_cases hp : p.1 = k
    · simp [dictSet, hp, dictLookup]
    · simp [dictSet, hp, dictLookup, ih]

theorem dictLookup_dictSet_ne {α β : Type} [DecidableEq α]
    (m : List (α × β)) (k k' : α) (v : β) (h : k' ≠ k) :
    dictLookup (dictSet m k' v) k = dictLookup m k := by
  induction m with
  | nil => simp [dictSet, dictLookup, h]
  | cons p ps ih =>
    by_cases hp : p.1 = k'
    · simp [dictSet, hp, dictLookup, h, hp ▸ h]
    · simp [dictSet, hp, dictLookup, ih]

theorem mem_keys_dictSet {α β : Type} [DecidableEq α]
    (m : List (α × β)) (k : α) (v : β) (a : α)
    (h : a ∈ (dictSet m k v).map Prod.fst) : a ∈ m.map Prod.fst ∨ a = k := by
  induction m with
  | nil => simpa [dictSet] using h
  | cons p ps ih =>
    by_cases hp : p.1 = k
    · rw [show dictSet (p :: ps) k v = (k, v) :: ps from by simp [dictSet, hp]] at h
      simp only [List.map_cons, List.mem_cons] at h
      rcases h with h | h
      · exact Or.inr h
      · exact Or.inl (by simp only [List.map_cons, List.mem_cons]; exact Or.inr h)
    · rw [show dictSet (p :: ps) k v = p :: dictSet ps k v from by simp [dictSet, hp]] at h
      simp only [List.map_cons, List.mem_cons] at h
      rcases h with h | h
      · exact Or.inl (by simp only [List.map_cons, List.mem_cons]; exact Or.inl h)
      · rcases ih h with h2 | h2
        · exact Or.inl (by simp only [List.map_cons, List.mem_cons]; exact Or.inr h2)
        · exact Or.inr h2

theorem keys_nodup_dictSet {α β : Type} [DecidableEq α]
    (m : List (α × β)) (k : α) (v : β) (h : (m.map Prod.fst).Nodup) :
    ((dictSet m k v).map Prod.fst).Nodup := by
  induction m with
  | nil => simp [dictSet]
  | cons p ps ih =>
    simp only [List.map_cons, List.nodup_cons] at h
    by_cases hp : p.1 = k
    · rw [show dictSet (p :: ps) k v = (k, v) :: ps from by simp [dictSet, hp]]
      simp only [List.map_cons, List.nodup_cons]
      exact ⟨hp ▸ h.1, h.2⟩
    · rw [show dictSet (p :: ps) k v = p :: dictSet ps k v from by simp [dictSet, hp]]
      simp only [List.map_cons, List.nodup_cons]
      refine ⟨?_, ih h.2⟩
      intro hmem
      rcases mem_keys_dictSet ps k v p.1 hmem with h2 | h2
      · exact h.1 h2
      · exact hp h2

theorem mem_dictSet {α β : Type} [DecidableEq α]
    (m : List (α × β)) (k : α) (v : β) (p : α × β)
    (h : p ∈ dictSet m k v) : p ∈ m ∨ p = (k, v) := by
  induction m with
  | nil => simpa [dictSet] using h
  | cons q qs ih =>
    by_cases hq : q.1 = k
    · rw [show dictSet (q :: qs) k v = (k, v) :: qs from by simp [dictSet, hq]] at h
      rcases List.mem_cons.mp h with h | h
      · exact Or.inr h
      · exact Or.inl (List.mem_cons_of_mem q h)
    · rw [show dictSet (q :: qs) k v = q :: dictSet qs k v from by simp [dictSet, hq]] at h
      rcases List.mem_cons.mp h with h | h
      · exact Or.inl (h ▸ List.mem_cons_self q qs)
      · rcases ih h with h2 | h2
        · exact Or.inl (List.mem_cons_of_mem q h2)
        · exact Or.inr h2

theorem mergeAt_keys (m : List (Value × Row)) (k : Value) (r : Row) :
    (mergeAt m k r).map Prod.fst = m.map Prod.fst := by
  induction m with
  | nil => rfl
  | cons p ps ih =>
    by_cases hp : p.1 = k
    · simp [mergeAt, hp]
    · simp [mergeAt, hp, ih]

theorem mem_mergeAt (m : List (Value × Row)) (k : Value) (r : Row) (p : Value × Row)
    (h : p ∈ mergeAt m k r) :
    p ∈ m ∨ ∃ old, (k, old) ∈ m ∧ p = (k, updateRow old r) := by
  induction m with
  | nil => simp [mergeAt] at h
  | cons q qs ih =>
    by_cases hq : q.1 = k
    · rw [show mergeAt (q :: qs) k r = (q.1, updateRow q.2 r) :: qs from by
        simp [mergeAt, hq]] at h
      rcases List.mem_cons.mp h with h | h
      · refine Or.inr ⟨q.2, ?_, by rw [h, hq]⟩
        have hqq : (k, q.2) = q := by rw [← hq]
        rw [hqq]
        exact List.mem_cons_self q qs
      · exact Or.inl (List.mem_cons_of_mem q h)
    · rw [show mergeAt (q :: qs) k r = q :: mergeAt qs k r from by simp [mergeAt, hq]] at h
      rcases List.mem_cons.mp h with h | h
      · exact Or.inl (h ▸ List.mem_cons_self q qs)
      · rcases ih h with h2 | ⟨old, hold, hp⟩
        · exact Or.inl (List.mem_cons_of_mem q h2)
        · exact Or.inr ⟨old, List.mem_cons_of_mem q hold, hp⟩

theorem dictLookup_not_mem {α β : Type} [DecidableEq α]
    (row : List (α × β)) (k : α) (h : k ∉ row.map Prod.fst) :
    dictLookup row k = none := by
  induction row with
  | nil => rfl
  | cons p ps ih =>
    simp only [List.map_cons, List.mem_cons] at h
    push_neg at h
    have hp : p.1 ≠ k := fun hc => h.1 hc.symm
    rw [show dictLookup (p :: ps) k = dictLookup ps k from by simp [dictLookup, hp]]
    exact ih h.2

theorem dictLookup_updateRow_none (k : String) :
    ∀ (row : Row) (d : Row),
      dictLookup row k = none →
      dictLookup (updateRow d row) k = dictLookup d k := by
  intro row
  induction row with
  | nil => intro d _; rfl
  | cons p ps ih =>
    intro d h
    by_cases hp : p.1 = k
    · rw [show dictLookup (p :: ps) k = some p.2 from by simp [dictLookup, hp]] at h
      cases h
    · rw [show dictLookup (p :: ps) k = dictLookup ps k from by simp [dictLookup, hp]] at h
      rw [show updateRow d (p :: ps) = updateRow (dictSet d p.1 p.2) ps from rfl]
      rw [ih (dictSet d p.1 p.2) h]
      exact dictLookup_dictSet_ne d k p.1 p.2 hp

theorem dictLookup_updateRow_some (k : String) :
    ∀ (row : Row) (d : Row) (v : Value),
      (row.map Prod.fst).Nodup → dictLookup row k = some v →
      dictLookup (updateRow d row) k = some v := by
  intro row
  induction row with
  | nil => intro d v _ h; cases h
  | cons p ps ih =>
    intro d v hnd h
    simp only [List.map_cons, List.nodup_cons] at hnd
    by_cases hp : p.1 = k
    · rw [show dictLookup (p :: ps) k = some p.2 from by simp [dictLookup, hp]] at h
      have hps : dictLookup ps k = none := dictLookup_not_mem ps k (hp ▸ hnd.1)
      rw [show updateRow d (p :: ps) = updateRow (dictSet d p.1 p.2) ps from rfl]
      rw [dictLookup_updateRow_none k ps (dictSet d p.1 p.2) hps]
      rw [hp, dictLookup_dictSet_self]
      exact h
    · rw [show dictLookup (p :: ps) k = dictLookup ps k from by simp [dictLookup, hp]] at h
      rw [show updateRow d (p :: ps) = updateRow (dictSet d p.1 p.2) ps from rfl]
      exact ih (dictSet d p.1 p.2) v hnd.2 h

theorem seed_inv (key : String) :
    ∀ (rows : List Row) (m : List (Value × Row)),
      KeyMapInv key m → KeyMapInv key (rows.foldl (seedStep key) m) := by
  intro rows
  induction rows with
  | nil => intro m h; exact h
  | cons row rest ih =>
    intro m hm
    rw [List.foldl_cons]
    apply ih
    unfold seedStep
    cases hl : dictLookup row key with
    | none => exact hm
    | some v =>
      constructor
      · exact keys_nodup_dictSet m v row hm.1
      · intro p hp
        rcases mem_dictSet m v row p hp with h | h
        · exact hm.2 p h
        · rw [h]
          exact hl

theorem mergeRow_inv (key : String) (m : List (Value × Row)) (row : Row)
    (hm : KeyMapInv key m) (hrow : (row.map Prod.fst).Nodup) :
    KeyMapInv key (mergeRow key m row) := by
  unfold mergeRow
  cases hl : dictLookup row key with
  | none => exact hm
  | some v =>
    show KeyMapInv key (if (v.truthy && dictHasKey m v) = true then mergeAt m v row else m)
    by_cases hc : (v.truthy && dictHasKey m v) = true
    · rw [if_pos hc]
      constructor
      · rw [mergeAt_keys]
        exact hm.1
      · intro p hp
        rcases mem_mergeAt m v row p hp with h | ⟨old, _, hpe⟩
        · exact hm.2 p h
        · rw [hpe]
          exact dictLookup_updateRow_some key row old v hrow hl
    · rw [if_neg hc]
      exact hm

theorem merge_ds_inv (key : String) :
    ∀ (ds : List Row) (m : List (Value × Row)),
      (∀ row ∈ ds, (row.map Prod.fst).Nodup) →
      KeyMapInv key m → KeyMapInv key (ds.foldl (mergeRow key) m) := by
  intro ds
  induction ds with
  | nil => intro m _ hm; exact hm
  | cons row rest ih =>
    intro m hnd hm
    rw [List.foldl_cons]
    exact ih _ (fun r hr => hnd r (List.mem_cons_of_mem row hr))
      (mergeRow_inv key m row hm (hnd row (List.mem_cons_self row rest)))

theorem merge_all_inv (key : String) :
    ∀ (dss : List (List Row)) (m : List (Value × Row)),
      (∀ ds ∈ dss, ∀ row ∈ ds, (row.map Prod.fst).Nodup) →
      KeyMapInv key m →
      KeyMapInv key (dss.foldl (fun m ds => ds.foldl (mergeRow key) m) m) := by
  intro dss
  induction dss with
  | nil => intro m _ hm; exact hm
  | cons ds rest ih =>
    intro m hnd hm
    rw [List.foldl_cons]
    exact ih _ (fun d hd row hr => hnd d (List.mem_cons_of_mem ds hd) row hr)
      (merge_ds_inv key ds m (hnd ds (List.mem_cons_self ds rest)) hm)

theorem map_lookup_eq (key : String) :
    ∀ m : List (Value × Row), (∀ p ∈ m, dictLookup p.2 key = some p.1) →
      (m.map Prod.snd).map (fun row => dictLookup row key) = (m.map Prod.fst).map some := by
  intro m
  induction m with
  | nil => intro _; rfl
  | cons p ps ih =>
    intro h
    simp only [List.map_cons]
    rw [h p (List.mem_cons_self p ps), ih (fun q hq => h q (List.mem_cons_of_mem p hq))]

theorem inv_output (key : String) (m : List (Value × Row)) (h : KeyMapInv key m) :
    ((m.map Prod.snd).map (fun row => dictLookup row key)).Nodup := by
  rw [map_lookup_eq key m h.2]
  exact h.1.map (Option.some_injective _)

/-- C10: in a keyed join, when the first dataset holds several rows with the
same join-key value only the last one seeds the mapping entry for that key
(later duplicates overwrite earlier ones, and rows with other keys leave the
entry untouched); consequently, with dictionary-shaped rows and at least two
datasets, the joined output holds at most one row per distinct key value. -/
theorem C10_join_duplicates :
    ∀ key : String,
      (∀ (pre : List Row) (r : Row) (suf : List Row) (v : Value),
        dictLookup r key = some v →
        (∀ r2 ∈ suf, dictLookup r2 key ≠ some v) →
        dictLookup (seedMap (pre ++ r :: suf) key) v = some r) ∧
      (∀ datasets : List (List Row),
        2 ≤ datasets.length →
        (∀ ds ∈ datasets, ∀ row ∈ ds, (row.map Prod.fst).Nodup) →
        ((joinData datasets key).map (fun row => dictLookup row key)).Nodup) := by
  intro key
  constructor
  · intro pre r suf v hr hsuf
    unfold seedMap
    rw [List.foldl_append, List.foldl_cons]
    rw [show seedStep key (pre.foldl (seedStep key) []) r =
        dictSet (pre.foldl (seedStep key) []) v r from by simp [seedStep, hr]]
    have stab : ∀ (suf2 : List Row) (m : List (Value × Row)),
        (∀ r2 ∈ suf2, dictLookup r2 key ≠ some v) →
        dictLookup (suf2.foldl (seedStep key) m) v = dictLookup m v := by
      intro suf2
      induction suf2 with
      | nil => intro m _; rfl
      | cons r2 rest ih =>
        intro m hm
        rw [List.foldl_cons]
        rw [ih _ (fun x hx => hm x (List.mem_cons_of_mem r2 hx))]
        unfold seedStep
        cases hl : dictLookup r2 key with
        | none => rfl
        | some v2 =>
          have hne : v2 ≠ v := fun hc => hm r2 (List.mem_cons_self r2 rest) (hc ▸ hl)
          exact dictLookup_dictSet_ne m v v2 r2 hne
    rw [stab suf _ hsuf]
    exact dictLookup_dictSet_self _ v r
  · intro datasets hlen hnd
    rcases datasets with _ | ⟨d1, rest⟩
    · simp at hlen
    rcases rest with _ | ⟨d2, rest2⟩
    · simp at hlen
    have hinv : KeyMapInv key
        ((d2 :: rest2).foldl (fun m ds => ds.foldl (mergeRow key) m) (seedMap d1 key)) := by
      apply merge_all_inv
      · intro ds hds row hrow
        exact hnd ds (List.mem_cons_of_mem d1 hds) row hrow
      · exact seed_inv key d1 [] ⟨List.nodup_nil, fun p hp => absurd hp (List.not_mem_nil p)⟩
    rw [show joinData (d1 :: d2 :: rest2) key =
        ((d2 :: rest2).foldl (fun m ds => ds.foldl (mergeRow key) m)
          (seedMap d1 key)).map Prod.snd from rfl]
    exact inv_output key _ hinv

/-- C10 witness: duplicate key `id = 1` in the first dataset — the later row
wins the seed, and the joined output of a two-dataset join has pairwise
distinct key values. -/
theorem C10_witness :
    dictLookup (seedMap [[("id", Value.intV 1), ("x", Value.strV "a")],
                         [("id", Value.intV 1), ("x", Value.strV "b")]] "id")
        (Value.intV 1) =
      some [("id", Value.intV 1), ("x", Value.strV "b")] ∧
    ((joinData [[[("id", Value.intV 1)], [("id", Value.intV 1), ("x", Value.strV "b")]],
                [[("id", Value.intV 1), ("y", Value.strV "p")]]] "id").map
        (fun row => dictLookup row "id")).Nodup :=
  ⟨(C10_join_duplicates "id").1 [[("id", Value.intV 1), ("x", Value.strV "a")]]
      [("id", Value.intV 1), ("x", Value.strV "b")] [] (Value.intV 1)
      (by decide) (by decide),
   (C10_join_duplicates "id").2
      [[[("id", Value.intV 1)], [("id", Value.intV 1), ("x", Value.strV "b")]],
       [[("id", Value.intV 1), ("y", Value.strV "p")]]]
      (by decide) (by decide)⟩
